import Mathlib

/-!
Shallow embedding of the Demo Jam API (`main.go`): a Go HTTP CRUD service over
an in-memory slice `items []Item` guarded by a mutex.  Each HTTP handler is
modelled as a pure function from its decoded inputs and the collection state to
the new collection state paired with the HTTP response.  The mutex serialises
handler bodies in the Go program, so one sequential call per handler is the
faithful unit of modelling; randomness (`rand.Intn(1000000)`) is modelled by an
explicit parameter `randVal < 1000000`.
-/

namespace DemoJamApi

/-- JSON values, modelling the wire format handled by Go `encoding/json`.
An object is a list of key / value fields in source order. -/
inductive Json where
  | null : Json
  | str : String → Json
  | num : Int → Json
  | bool : Bool → Json
  | arr : List Json → Json
  | obj : List (String × Json) → Json

/-- The `Item` struct of `main.go`: `ID`, `Name`, `Description`, all strings,
with JSON tags `id`, `name`, `description`. -/
structure Item where
  ID : String
  Name : String
  Description : String
deriving DecidableEq

/-- ASCII lower-casing of a key, modelling the case-insensitive field matching
of Go `encoding/json` (the struct tags `id` / `name` / `description` are ASCII,
so ASCII folding is the relevant fragment). -/
def lowerKey (s : String) : String :=
  String.mk (s.data.map Char.toLower)

/-- One step of Go `encoding/json` unmarshalling of an object field into the
`Item` struct: a string value sets the matching field, a JSON `null` value is a
no-op, a value of any other type is a type error (`none`), and fields matching
no struct tag are ignored. -/
def setField (it : Item) (key : String) (v : Json) : Option Item :=
  if lowerKey key = "id" then
    match v with
    | Json.str s => some { it with ID := s }
    | Json.null => some it
    | _ => none
  else if lowerKey key = "name" then
    match v with
    | Json.str s => some { it with Name := s }
    | Json.null => some it
    | _ => none
  else if lowerKey key = "description" then
    match v with
    | Json.str s => some { it with Description := s }
    | Json.null => some it
    | _ => none
  else some it

/-- Fold `setField` over the fields of a JSON object in source order
(later duplicate keys overwrite earlier ones, as in Go). -/
def setFields : Item → List (String × Json) → Option Item
  | it, [] => some it
  | it, (k, v) :: rest =>
    match setField it k v with
    | some next => setFields next rest
    | none => none

/-- The zero value of the Go `Item` struct: every string field empty. -/
def zeroItem : Item := ⟨"", "", ""⟩

/-- Go `json.Decoder.Decode(&item)` on a syntactically valid JSON value:
an object is unmarshalled field by field into the zero-valued struct, the
top-level value `null` is a no-op leaving the zero value, and any other
top-level value is a type error. -/
def decodeItem : Json → Option Item
  | Json.null => some zeroItem
  | Json.obj fields => setFields zeroItem fields
  | _ => none

/-- A request body: `none` stands for a body that is not syntactically valid
JSON (or is empty), on which `Decode` fails outright. -/
def decodeBody : Option Json → Option Item
  | none => none
  | some j => decodeItem j

/-- An HTTP response as produced by `respondWithJSON` / `respondWithError`:
a status code and a JSON body. -/
structure Response where
  status : Nat
  body : Json

/-- The body written by `respondWithError`. -/
def errorBody (message : String) : Json :=
  Json.obj [("error", Json.str message)]

/-- JSON serialisation of an `Item`, per its struct tags. -/
def itemJson (it : Item) : Json :=
  Json.obj [("id", Json.str it.ID), ("name", Json.str it.Name),
    ("description", Json.str it.Description)]

/-- The success body of `deleteItem` in `main.go`
(`map[string]string` with keys `result` and `id_deleted`). -/
def deletedBody (id : String) : Json :=
  Json.obj [("result", Json.str "success"), ("id_deleted", Json.str id)]

/-- The code-point of the decimal digit `d`, as produced by Go `strconv.Itoa`. -/
def digitChar (d : Nat) : Char := Char.ofNat (48 + d)

/-- Fuel-driven accumulation of the decimal digits of `n`, most significant
first; `fuel ≥ n` makes it total.  Models the digit loop of `strconv.Itoa`. -/
def itoaCore : Nat → Nat → List Char
  | 0, _ => []
  | _ + 1, 0 => []
  | fuel + 1, n + 1 =>
    itoaCore fuel ((n + 1) / 10) ++ [digitChar ((n + 1) % 10)]

/-- Go `strconv.Itoa` on a non-negative integer: its decimal representation,
with `0` printed as `"0"`. -/
def itoa (n : Nat) : String :=
  if n = 0 then "0" else String.mk (itoaCore n n)

/-- Linear scan of the collection for the first item whose `ID` equals `id`,
as in the `for ... range items` loops of `main.go`. -/
def findItem (id : String) : List Item → Option Item
  | [] => none
  | it :: rest => if it.ID = id then some it else findItem id rest

/-- The scan-and-mutate loop of `updateItem`: find the first item whose `ID`
equals `id`, overwrite its `Name` and `Description` in place with the patch's
values (the original `ID` is kept), and return the new collection together
with the updated item; `none` when no item matches. -/
def updateList (id : String) (patch : Item) : List Item → Option (List Item × Item)
  | [] => none
  | it :: rest =>
    if it.ID = id then
      let updated : Item := { it with Name := patch.Name, Description := patch.Description }
      some (updated :: rest, updated)
    else
      match updateList id patch rest with
      | some (rest2, updated) => some (it :: rest2, updated)
      | none => none

/-- The scan-and-remove loop of `deleteItem`:
`items = append(items[:index], items[index+1:]...)` at the first index whose
`ID` equals `id`; `none` when no item matches. -/
def deleteList (id : String) : List Item → Option (List Item)
  | [] => none
  | it :: rest =>
    if it.ID = id then some rest
    else
      match deleteList id rest with
      | some rest2 => some (it :: rest2)
      | none => none

/-- Handler `getItems` (GET /items): responds 200 with the whole collection. -/
def getItems (items : List Item) : List Item × Response :=
  (items, ⟨200, Json.arr (items.map itemJson)⟩)

/-- Handler `getItem` (GET /items/id): 200 with the first matching item,
else 404 with an error body; the collection is never changed. -/
def getItem (id : String) (items : List Item) : List Item × Response :=
  match findItem id items with
  | some it => (items, ⟨200, itemJson it⟩)
  | none => (items, ⟨404, errorBody "Item not found"⟩)

/-- Handler `createItem` (POST /items): decode the body (400 on failure),
overwrite the decoded item's `ID` with `strconv.Itoa(rand.Intn(1000000))`
— modelled by the parameter `randVal` — append it, and respond 201 with the
stored item. -/
def createItem (body : Option Json) (randVal : Nat) (items : List Item) :
    List Item × Response :=
  match decodeBody body with
  | none => (items, ⟨400, errorBody "Invalid request payload"⟩)
  | some item =>
    let stored : Item := { item with ID := itoa randVal }
    (items ++ [stored], ⟨201, itemJson stored⟩)

/-- Handler `updateItem` (PUT /items/id): decode the body (400 on failure),
then update the first matching item in place, responding 200 with the updated
item, or 404 with an error body when no item matches. -/
def updateItem (id : String) (body : Option Json) (items : List Item) :
    List Item × Response :=
  match decodeBody body with
  | none => (items, ⟨400, errorBody "Invalid request payload"⟩)
  | some patch =>
    match updateList id patch items with
    | some (items2, updated) => (items2, ⟨200, itemJson updated⟩)
    | none => (items, ⟨404, errorBody "Item not found"⟩)

/-- Handler `deleteItem` (DELETE /items/id): remove the first matching item and
respond 200 with the success body, or 404 with an error body when no item
matches. -/
def deleteItem (id : String) (items : List Item) : List Item × Response :=
  match deleteList id items with
  | some items2 => (items2, ⟨200, deletedBody id⟩)
  | none => (items, ⟨404, errorBody "Item not found"⟩)

/-- The mock data appended in `main` before the server starts. -/
def initialItems : List Item :=
  [⟨"1", "Default Item 1", "This is the first item"⟩,
   ⟨"2", "Default Item 2", "This is the second item"⟩,
   ⟨"3", "Default Item 3", "This is the third item"⟩,
   ⟨"4", "Default Item 4", "This is the fourth item"⟩,
   ⟨"5", "Default Item 5", "This is the fifth item"⟩]

/-- One serialised handler call taking the collection from `s` to `t`:
the mutex of `main.go` makes handler bodies atomic, so reachability is by
single steps.  A create step carries the range bound of `rand.Intn(1000000)`. -/
inductive Step : List Item → List Item → Prop
  | list (s : List Item) : Step s (getItems s).1
  | get (id : String) (s : List Item) : Step s (getItem id s).1
  | create (body : Option Json) (randVal : Nat) (s : List Item) :
      randVal < 1000000 → Step s (createItem body randVal s).1
  | update (id : String) (body : Option Json) (s : List Item) :
      Step s (updateItem id body s).1
  | delete (id : String) (s : List Item) : Step s (deleteItem id s).1

/-- Collection states reachable from the seeded initial state of `main`. -/
inductive Reachable : List Item → Prop
  | init : Reachable initialItems
  | step {s t : List Item} : Reachable s → Step s t → Reachable t

/-- No two items of the collection carry the same `ID`. -/
def UniqueIds (items : List Item) : Prop :=
  (items.map Item.ID).Nodup

instance (items : List Item) : Decidable (UniqueIds items) :=
  inferInstanceAs (Decidable ((items.map Item.ID).Nodup))

/-! ### First-match characterisations of the scan loops -/

theorem findItem_eq_none (id : String) (items : List Item)
    (habs : ∀ it ∈ items, it.ID ≠ id) : findItem id items = none := by
  induction items with
  | nil => rfl
  | cons it rest ih =>
    have hit : it.ID ≠ id := habs it (List.mem_cons_self it rest)
    simp only [findItem, if_neg hit]
    exact ih fun x hx => habs x (List.mem_cons_of_mem it hx)

theorem findItem_first (id : String) (pre post : List Item) (tgt : Item)
    (hid : tgt.ID = id) (hpre : ∀ x ∈ pre, x.ID ≠ id) :
    findItem id (pre ++ tgt :: post) = some tgt := by
  induction pre with
  | nil => simp [findItem, hid]
  | cons x rest ih =>
    have hx : x.ID ≠ id := hpre x (List.mem_cons_self x rest)
    simp only [List.cons_append, findItem, if_neg hx]
    exact ih fun y hy => hpre y (List.mem_cons_of_mem x hy)

theorem updateList_eq_none (id : String) (patch : Item) (items : List Item)
    (habs : ∀ it ∈ items, it.ID ≠ id) : updateList id patch items = none := by
  induction items with
  | nil => rfl
  | cons it rest ih =>
    have hit : it.ID ≠ id := habs it (List.mem_cons_self it rest)
    simp only [updateList, if_neg hit]
    rw [ih fun x hx => habs x (List.mem_cons_of_mem it hx)]

theorem updateList_first (id : String) (patch : Item) (pre post : List Item)
    (tgt : Item) (hid : tgt.ID = id) (hpre : ∀ x ∈ pre, x.ID ≠ id) :
    updateList id patch (pre ++ tgt :: post) =
      some (pre ++ { tgt with Name := patch.Name, Description := patch.Description } :: post,
        { tgt with Name := patch.Name, Description := patch.Description }) := by
  induction pre with
  | nil => simp [updateList, hid]
  | cons x rest ih =>
    have hx : x.ID ≠ id := hpre x (List.mem_cons_self x rest)
    simp only [List.cons_append, updateList, if_neg hx, List.append_eq]
    rw [ih fun y hy => hpre y (List.mem_cons_of_mem x hy)]

theorem deleteList_eq_none (id : String) (items : List Item)
    (habs : ∀ it ∈ items, it.ID ≠ id) : deleteList id items = none := by
  induction items with
  | nil => rfl
  | cons it rest ih =>
    have hit : it.ID ≠ id := habs it (List.mem_cons_self it rest)
    simp only [deleteList, if_neg hit]
    rw [ih fun x hx => habs x (List.mem_cons_of_mem it hx)]

theorem deleteList_first (id : String) (pre post : List Item) (tgt : Item)
    (hid : tgt.ID = id) (hpre : ∀ x ∈ pre, x.ID ≠ id) :
    deleteList id (pre ++ tgt :: post) = some (pre ++ post) := by
  induction pre with
  | nil => simp [deleteList, hid]
  | cons x rest ih =>
    have hx : x.ID ≠ id := hpre x (List.mem_cons_self x rest)
    simp only [List.cons_append, deleteList, if_neg hx, List.append_eq]
    rw [ih fun y hy => hpre y (List.mem_cons_of_mem x hy)]

/-! ### Shape of the ids produced by `itoa` -/

theorem itoaCore_zero (fuel : Nat) : itoaCore fuel 0 = [] := by
  cases fuel <;> rfl

theorem digitChar_ge (d : Nat) (hd : d < 10) : '0' ≤ digitChar d := by
  interval_cases d <;> decide

theorem digitChar_le (d : Nat) (hd : d < 10) : digitChar d ≤ '9' := by
  interval_cases d <;> decide

theorem digitChar_ne_zero_char (d : Nat) (h1 : 1 ≤ d) (hd : d < 10) :
    digitChar d ≠ '0' := by
  interval_cases d <;> decide

theorem itoaCore_mem (fuel n : Nat) :
    ∀ c ∈ itoaCore fuel n, ∃ d, d < 10 ∧ c = digitChar d := by
  induction fuel generalizing n with
  | zero => intro c hc; simp [itoaCore] at hc
  | succ fuel ih =>
    match n with
    | 0 => intro c hc; simp [itoaCore] at hc
    | n + 1 =>
      intro c hc
      simp only [itoaCore, List.mem_append, List.mem_singleton] at hc
      rcases hc with hc | hc
      · exact ih _ c hc
      · exact ⟨(n + 1) % 10, Nat.mod_lt _ (by norm_num), hc⟩

theorem itoaCore_length_le (fuel n k : Nat) (hfuel : n ≤ fuel)
    (hk : n < 10 ^ k) : (itoaCore fuel n).length ≤ k := by
  induction fuel generalizing n k with
  | zero =>
    have : n = 0 := Nat.le_zero.mp hfuel
    subst this
    simp [itoaCore]
  | succ fuel ih =>
    match n with
    | 0 => simp [itoaCore]
    | n + 1 =>
      have hkpos : k ≠ 0 := by
        rintro rfl
        simp at hk
      obtain ⟨k, rfl⟩ := Nat.exists_eq_succ_of_ne_zero hkpos
      have hdivfuel : (n + 1) / 10 ≤ fuel := by
        have := Nat.div_lt_self (Nat.succ_pos n) (by norm_num : 1 < 10)
        omega
      have hdivk : (n + 1) / 10 < 10 ^ k := by
        rw [Nat.div_lt_iff_lt_mul (by norm_num : 0 < 10)]
        calc n + 1 < 10 ^ (k + 1) := hk
          _ = 10 ^ k * 10 := by ring
      have := ih ((n + 1) / 10) k hdivfuel hdivk
      simp only [itoaCore, List.length_append, List.length_singleton]
      omega

theorem itoaCore_head (fuel n : Nat) (h1 : 1 ≤ n) (hfuel : n ≤ fuel) :
    ∃ c cs, itoaCore fuel n = c :: cs ∧ c ≠ '0' := by
  induction fuel generalizing n with
  | zero => omega
  | succ fuel ih =>
    match n, h1 with
    | n + 1, _ =>
      by_cases hlt : n + 1 < 10
      · have hdiv : (n + 1) / 10 = 0 := Nat.div_eq_of_lt hlt
        have hmod : (n + 1) % 10 = n + 1 := Nat.mod_eq_of_lt hlt
        refine ⟨digitChar (n + 1), [], ?_, ?_⟩
        · simp [itoaCore, hdiv, hmod, itoaCore_zero]
        · exact digitChar_ne_zero_char _ (Nat.succ_le_succ (Nat.zero_le n)) hlt
      · have hge : 10 ≤ n + 1 := Nat.le_of_not_lt hlt
        have hdiv1 : 1 ≤ (n + 1) / 10 :=
          (Nat.one_le_div_iff (by norm_num : 0 < 10)).mpr hge
        have hdivfuel : (n + 1) / 10 ≤ fuel := by
          have := Nat.div_lt_self (Nat.succ_pos n) (by norm_num : 1 < 10)
          omega
        obtain ⟨c, cs, heq, hne⟩ := ih ((n + 1) / 10) hdiv1 hdivfuel
        exact ⟨c, cs ++ [digitChar ((n + 1) % 10)], by simp [itoaCore, heq], hne⟩

theorem itoa_zero_eq : itoa 0 = "0" := rfl

theorem itoa_length_pos (n : Nat) : 1 ≤ (itoa n).length := by
  by_cases h : n = 0
  · subst h; decide
  · rw [itoa, if_neg h]
    obtain ⟨c, cs, heq, -⟩ :=
      itoaCore_head n n (Nat.one_le_iff_ne_zero.mpr h) le_rfl
    show 1 ≤ (itoaCore n n).length
    rw [heq]
    simp

theorem itoa_ne_empty (n : Nat) : itoa n ≠ "" := by
  intro hc
  have hlen := itoa_length_pos n
  rw [hc] at hlen
  simp at hlen

theorem itoa_length_le (n k : Nat) (hk : n < 10 ^ k) (hkpos : 1 ≤ k) :
    (itoa n).length ≤ k := by
  by_cases h : n = 0
  · subst h
    show ("0" : String).length ≤ k
    simpa using hkpos
  · rw [itoa, if_neg h]
    exact itoaCore_length_le n n k le_rfl hk

theorem itoa_chars_are_digits (n : Nat) :
    ∀ c ∈ (itoa n).data, '0' ≤ c ∧ c ≤ '9' := by
  by_cases h : n = 0
  · subst h; decide
  · rw [itoa, if_neg h]
    intro c hc
    obtain ⟨d, hd, hcd⟩ := itoaCore_mem n n c hc
    exact hcd ▸ ⟨digitChar_ge d hd, digitChar_le d hd⟩

theorem itoa_head_ne_zero_char (n : Nat) (h : n ≠ 0) :
    (itoa n).data.head? ≠ some '0' := by
  rw [itoa, if_neg h]
  obtain ⟨c, cs, heq, hne⟩ :=
    itoaCore_head n n (Nat.one_le_iff_ne_zero.mpr h) le_rfl
  show (itoaCore n n).head? ≠ some '0'
  rw [heq]
  simp [hne]

/-- A collection containing an item with id `id` splits at the first such item:
everything before it has a different id. -/
theorem exists_first_decomposition (id : String) (items : List Item)
    (hmem : ∃ it ∈ items, it.ID = id) :
    ∃ pre tgt post, items = pre ++ tgt :: post ∧ tgt.ID = id ∧
      ∀ x ∈ pre, x.ID ≠ id := by
  induction items with
  | nil => simp at hmem
  | cons it rest ih =>
    by_cases hit : it.ID = id
    · exact ⟨[], it, rest, rfl, hit, by simp⟩
    · have : ∃ x ∈ rest, x.ID = id := by
        rcases hmem with ⟨x, hx, hxid⟩
        rcases List.mem_cons.mp hx with h | h
        · exact absurd (h ▸ hxid) hit
        · exact ⟨x, h, hxid⟩
      rcases ih this with ⟨pre, tgt, post, heq, hid, hpre⟩
      refine ⟨it :: pre, tgt, post, by rw [heq, List.cons_append], hid, ?_⟩
      intro x hx
      rcases List.mem_cons.mp hx with h | h
      · exact h ▸ hit
      · exact hpre x h

/-! ### Claims -/

/-- C1: the spec claims that on every reachable collection state the create
handler assigns an id that equals no id already present, and answers 201 with
the stored item.  The code draws `strconv.Itoa(rand.Intn(1000000))` with no
collision check, so the claim fails: on the seeded initial state (reachable)
the draw 1 assigns id "1", already the id of the first seeded item, yet the
handler still answers 201 and stores the item. -/
theorem c1_create_can_assign_existing_id :
    Reachable initialItems ∧ (1 : Nat) < 1000000 ∧
    (∃ it ∈ initialItems, it.ID = itoa 1) ∧
    createItem (some Json.null) 1 initialItems =
      (initialItems ++ [⟨"1", "", ""⟩], ⟨201, itemJson ⟨"1", "", ""⟩⟩) :=
  ⟨Reachable.init, by decide, by decide, rfl⟩

/-- C2: the spec claims id uniqueness holds in the seeded initial state and is
preserved by every Store operation.  It does hold initially, but create does
not preserve it: the reachable state after a create with random draw 1 on the
seeded initial state holds two items with id "1". -/
theorem c2_unique_ids_not_preserved :
    UniqueIds initialItems ∧
    Reachable (createItem (some Json.null) 1 initialItems).1 ∧
    ¬ UniqueIds (createItem (some Json.null) 1 initialItems).1 :=
  ⟨by decide,
   Reachable.step Reachable.init
     (Step.create (some Json.null) 1 initialItems (by decide)),
   by decide⟩

/-- C3: a create or update request whose body fails to decode into the Item
shape yields status 400 with the invalid-payload error body, and the
collection after the call is exactly the collection before it. -/
theorem c3_bad_payload_rejected (body : Option Json) (id : String)
    (randVal : Nat) (items : List Item) (hdec : decodeBody body = none) :
    createItem body randVal items =
      (items, ⟨400, errorBody "Invalid request payload"⟩) ∧
    updateItem id body items =
      (items, ⟨400, errorBody "Invalid request payload"⟩) := by
  constructor
  · simp only [createItem, hdec]
  · simp only [updateItem, hdec]

/-- Witness for C3 at the undecodable body `3`. -/
theorem c3_bad_payload_rejected_witness :
    decodeBody (some (Json.num 3)) = none ∧
    (createItem (some (Json.num 3)) 0 initialItems =
       (initialItems, ⟨400, errorBody "Invalid request payload"⟩) ∧
     updateItem "1" (some (Json.num 3)) initialItems =
       (initialItems, ⟨400, errorBody "Invalid request payload"⟩)) :=
  ⟨rfl, c3_bad_payload_rejected (some (Json.num 3)) "1" 0 initialItems rfl⟩

/-- C4: updating an id present in the collection with a decodable patch keeps
the length, the targeted item's id and its position, replaces only its name
and description with the patch's values (the patch's own id being ignored,
since the conclusion does not depend on it), answers 200 with the updated
item, and leaves every other item identical in its original position. -/
theorem c4_update_frame (id : String) (body : Option Json) (patch : Item)
    (items : List Item) (hdec : decodeBody body = some patch)
    (hmem : ∃ it ∈ items, it.ID = id) :
    ∃ pre tgt post, items = pre ++ tgt :: post ∧ tgt.ID = id ∧
      (∀ x ∈ pre, x.ID ≠ id) ∧
      updateItem id body items =
        (pre ++ { tgt with Name := patch.Name, Description := patch.Description } :: post,
         ⟨200, itemJson { tgt with Name := patch.Name, Description := patch.Description }⟩) ∧
      ({ tgt with Name := patch.Name, Description := patch.Description }).ID = tgt.ID ∧
      (pre ++ { tgt with Name := patch.Name, Description := patch.Description } :: post).length
        = items.length := by
  rcases exists_first_decomposition id items hmem with ⟨pre, tgt, post, heq, hid, hpre⟩
  subst heq
  refine ⟨pre, tgt, post, rfl, hid, hpre, ?_, rfl, by simp⟩
  simp only [updateItem, hdec, updateList_first id patch pre post tgt hid hpre]

/-- Witness for C4: updating id "2" of the seed with a name / description
patch. -/
theorem c4_update_frame_witness :
    decodeBody (some (Json.obj [("name", Json.str "New"), ("description", Json.str "Desc")]))
      = some ⟨"", "New", "Desc"⟩ ∧
    (∃ it ∈ initialItems, it.ID = "2") ∧
    ∃ pre tgt post, initialItems = pre ++ tgt :: post ∧ tgt.ID = "2" ∧
      (∀ x ∈ pre, x.ID ≠ "2") ∧
      updateItem "2"
          (some (Json.obj [("name", Json.str "New"), ("description", Json.str "Desc")]))
          initialItems =
        (pre ++ { tgt with Name := (⟨"", "New", "Desc"⟩ : Item).Name,
                           Description := (⟨"", "New", "Desc"⟩ : Item).Description } :: post,
         ⟨200, itemJson { tgt with Name := (⟨"", "New", "Desc"⟩ : Item).Name,
                                   Description := (⟨"", "New", "Desc"⟩ : Item).Description }⟩) ∧
      ({ tgt with Name := (⟨"", "New", "Desc"⟩ : Item).Name,
                  Description := (⟨"", "New", "Desc"⟩ : Item).Description }).ID = tgt.ID ∧
      (pre ++ { tgt with Name := (⟨"", "New", "Desc"⟩ : Item).Name,
                         Description := (⟨"", "New", "Desc"⟩ : Item).Description } :: post).length
        = initialItems.length :=
  ⟨rfl, by decide,
   c4_update_frame "2"
     (some (Json.obj [("name", Json.str "New"), ("description", Json.str "Desc")]))
     ⟨"", "New", "Desc"⟩ initialItems rfl (by decide)⟩

/-- C5: deleting an id present in the collection removes exactly the first
item whose id matches, shortens the collection by exactly one, preserves the
relative order of the remaining items, and answers 200 with the success body
carrying the deleted id. -/
theorem c5_delete_removes_first_match (id : String) (items : List Item)
    (hmem : ∃ it ∈ items, it.ID = id) :
    ∃ pre tgt post, items = pre ++ tgt :: post ∧ tgt.ID = id ∧
      (∀ x ∈ pre, x.ID ≠ id) ∧
      deleteItem id items = (pre ++ post, ⟨200, deletedBody id⟩) ∧
      (pre ++ post).length + 1 = items.length := by
  rcases exists_first_decomposition id items hmem with ⟨pre, tgt, post, heq, hid, hpre⟩
  subst heq
  refine ⟨pre, tgt, post, rfl, hid, hpre, ?_,
    by simp only [List.length_append, List.length_cons]; omega⟩
  simp only [deleteItem, deleteList_first id pre post tgt hid hpre]

/-- Witness for C5: deleting id "2" from the seed. -/
theorem c5_delete_removes_first_match_witness :
    (∃ it ∈ initialItems, it.ID = "2") ∧
    ∃ pre tgt post, initialItems = pre ++ tgt :: post ∧ tgt.ID = "2" ∧
      (∀ x ∈ pre, x.ID ≠ "2") ∧
      deleteItem "2" initialItems = (pre ++ post, ⟨200, deletedBody "2"⟩) ∧
      (pre ++ post).length + 1 = initialItems.length :=
  ⟨by decide, c5_delete_removes_first_match "2" initialItems (by decide)⟩

/-- C6: for an id carried by no item of the collection, get, update (with a
decodable body) and delete each answer 404 with the not-found error body and
leave the collection exactly as it was. -/
theorem c6_missing_id_yields_404 (id : String) (body : Option Json)
    (patch : Item) (items : List Item) (habs : ∀ it ∈ items, it.ID ≠ id)
    (hdec : decodeBody body = some patch) :
    getItem id items = (items, ⟨404, errorBody "Item not found"⟩) ∧
    updateItem id body items = (items, ⟨404, errorBody "Item not found"⟩) ∧
    deleteItem id items = (items, ⟨404, errorBody "Item not found"⟩) := by
  refine ⟨?_, ?_, ?_⟩
  · simp only [getItem, findItem_eq_none id items habs]
  · simp only [updateItem, hdec, updateList_eq_none id patch items habs]
  · simp only [deleteItem, deleteList_eq_none id items habs]

/-- Witness for C6 at the absent id "999" on the seed. -/
theorem c6_missing_id_yields_404_witness :
    (∀ it ∈ initialItems, it.ID ≠ "999") ∧
    decodeBody (some Json.null) = some zeroItem ∧
    (getItem "999" initialItems =
       (initialItems, ⟨404, errorBody "Item not found"⟩) ∧
     updateItem "999" (some Json.null) initialItems =
       (initialItems, ⟨404, errorBody "Item not found"⟩) ∧
     deleteItem "999" initialItems =
       (initialItems, ⟨404, errorBody "Item not found"⟩)) :=
  ⟨by decide, rfl,
   c6_missing_id_yields_404 "999" (some Json.null) zeroItem initialItems
     (by decide) rfl⟩

/-- C7: for an id present in the collection, get answers 200 with the first
item (in collection order) whose id matches — the linear scan `findItem` —
and returns the collection unchanged. -/
theorem c7_get_returns_first_match (id : String) (items : List Item)
    (hmem : ∃ it ∈ items, it.ID = id) :
    ∃ pre tgt post, items = pre ++ tgt :: post ∧ tgt.ID = id ∧
      (∀ x ∈ pre, x.ID ≠ id) ∧
      findItem id items = some tgt ∧
      getItem id items = (items, ⟨200, itemJson tgt⟩) := by
  rcases exists_first_decomposition id items hmem with ⟨pre, tgt, post, heq, hid, hpre⟩
  subst heq
  have hfind := findItem_first id pre post tgt hid hpre
  exact ⟨pre, tgt, post, rfl, hid, hpre, hfind, by simp only [getItem, hfind]⟩

/-- Witness for C7 at id "3" on the seed. -/
theorem c7_get_returns_first_match_witness :
    (∃ it ∈ initialItems, it.ID = "3") ∧
    ∃ pre tgt post, initialItems = pre ++ tgt :: post ∧ tgt.ID = "3" ∧
      (∀ x ∈ pre, x.ID ≠ "3") ∧
      findItem "3" initialItems = some tgt ∧
      getItem "3" initialItems = (initialItems, ⟨200, itemJson tgt⟩) :=
  ⟨by decide, c7_get_returns_first_match "3" initialItems (by decide)⟩

/-- C8: every id assigned by a successful create is `itoa` of the random draw,
which `rand.Intn(1000000)` bounds by 999999: the id is non-empty, at most six
characters, all characters are decimal digits, and its first character is not
the zero digit unless the id is "0" itself. -/
theorem c8_created_id_shape (body : Option Json) (patch : Item)
    (randVal : Nat) (items : List Item) (hdec : decodeBody body = some patch)
    (hrand : randVal < 1000000) :
    createItem body randVal items =
      (items ++ [{ patch with ID := itoa randVal }],
       ⟨201, itemJson { patch with ID := itoa randVal }⟩) ∧
    ({ patch with ID := itoa randVal }).ID = itoa randVal ∧
    randVal ≤ 999999 ∧
    itoa randVal ≠ "" ∧
    (itoa randVal).length ≤ 6 ∧
    (∀ c ∈ (itoa randVal).data, '0' ≤ c ∧ c ≤ '9') ∧
    (itoa randVal = "0" ∨ (itoa randVal).data.head? ≠ some '0') := by
  refine ⟨?_, rfl, by omega, itoa_ne_empty randVal, ?_,
    itoa_chars_are_digits randVal, ?_⟩
  · simp only [createItem, hdec]
  · exact itoa_length_le randVal 6
      ((by norm_num : (1000000 : Nat) = 10 ^ 6) ▸ hrand) (by norm_num)
  · by_cases h : randVal = 0
    · exact Or.inl (by rw [h]; decide)
    · exact Or.inr (itoa_head_ne_zero_char randVal h)

/-- Witness for C8 at the draw 999999 with a null body on the seed. -/
theorem c8_created_id_shape_witness :
    decodeBody (some Json.null) = some zeroItem ∧ 999999 < 1000000 ∧
    (createItem (some Json.null) 999999 initialItems =
       (initialItems ++ [{ zeroItem with ID := itoa 999999 }],
        ⟨201, itemJson { zeroItem with ID := itoa 999999 }⟩) ∧
     ({ zeroItem with ID := itoa 999999 }).ID = itoa 999999 ∧
     999999 ≤ 999999 ∧
     itoa 999999 ≠ "" ∧
     (itoa 999999).length ≤ 6 ∧
     (∀ c ∈ (itoa 999999).data, '0' ≤ c ∧ c ≤ '9') ∧
     (itoa 999999 = "0" ∨ (itoa 999999).data.head? ≠ some '0')) :=
  ⟨rfl, by omega,
   c8_created_id_shape (some Json.null) zeroItem 999999 initialItems rfl
     (by omega)⟩

/-- C9: when the uniqueness invariant is already broken — a later item of the
collection shares the id of the first match — get returns the earliest match,
update rewrites only the earliest match, and delete removes only the earliest
match, every later duplicate staying in place inside `post`. -/
theorem c9_duplicates_first_wins (id : String) (body : Option Json)
    (patch : Item) (pre post : List Item) (tgt : Item)
    (hdup : ∃ x ∈ post, x.ID = id) (hid : tgt.ID = id)
    (hpre : ∀ x ∈ pre, x.ID ≠ id) (hdec : decodeBody body = some patch) :
    getItem id (pre ++ tgt :: post) = (pre ++ tgt :: post, ⟨200, itemJson tgt⟩) ∧
    updateItem id body (pre ++ tgt :: post) =
      (pre ++ { tgt with Name := patch.Name, Description := patch.Description } :: post,
       ⟨200, itemJson { tgt with Name := patch.Name, Description := patch.Description }⟩) ∧
    deleteItem id (pre ++ tgt :: post) = (pre ++ post, ⟨200, deletedBody id⟩) := by
  refine ⟨?_, ?_, ?_⟩
  · simp only [getItem, findItem_first id pre post tgt hid hpre]
  · simp only [updateItem, hdec, updateList_first id patch pre post tgt hid hpre]
  · simp only [deleteItem, deleteList_first id pre post tgt hid hpre]

/-- Witness for C9 on a two-element collection whose items both carry id "7". -/
theorem c9_duplicates_first_wins_witness :
    (∃ x ∈ [(⟨"7", "b", "B"⟩ : Item)], x.ID = "7") ∧
    (⟨"7", "a", "A"⟩ : Item).ID = "7" ∧
    (∀ x ∈ ([] : List Item), x.ID ≠ "7") ∧
    decodeBody (some Json.null) = some zeroItem ∧
    (getItem "7" ([] ++ (⟨"7", "a", "A"⟩ : Item) :: [⟨"7", "b", "B"⟩]) =
       ([] ++ (⟨"7", "a", "A"⟩ : Item) :: [⟨"7", "b", "B"⟩],
        ⟨200, itemJson ⟨"7", "a", "A"⟩⟩) ∧
     updateItem "7" (some Json.null) ([] ++ (⟨"7", "a", "A"⟩ : Item) :: [⟨"7", "b", "B"⟩]) =
       ([] ++ (⟨"7", "", ""⟩ : Item) :: [⟨"7", "b", "B"⟩],
        ⟨200, itemJson ⟨"7", "", ""⟩⟩) ∧
     deleteItem "7" ([] ++ (⟨"7", "a", "A"⟩ : Item) :: [⟨"7", "b", "B"⟩]) =
       ([] ++ [⟨"7", "b", "B"⟩], ⟨200, deletedBody "7"⟩)) :=
  ⟨by decide, rfl, by decide, rfl,
   c9_duplicates_first_wins "7" (some Json.null) zeroItem [] [⟨"7", "b", "B"⟩]
     ⟨"7", "a", "A"⟩ (by decide) rfl (by decide) rfl⟩

/-- C10: a body that is the single JSON value null decodes (to the zero-valued
Item) instead of being rejected: create with a null body answers 201 and
stores an item with empty name and description under the freshly assigned id,
and update with a null body on a present id answers 200 and clears that
item's name and description; neither answers 400. -/
theorem c10_null_body_decodes (id : String) (randVal : Nat)
    (items : List Item) (hmem : ∃ it ∈ items, it.ID = id) :
    decodeBody (some Json.null) = some zeroItem ∧
    createItem (some Json.null) randVal items =
      (items ++ [⟨itoa randVal, "", ""⟩], ⟨201, itemJson ⟨itoa randVal, "", ""⟩⟩) ∧
    ∃ pre tgt post, items = pre ++ tgt :: post ∧ tgt.ID = id ∧
      (∀ x ∈ pre, x.ID ≠ id) ∧
      updateItem id (some Json.null) items =
        (pre ++ (⟨tgt.ID, "", ""⟩ : Item) :: post, ⟨200, itemJson ⟨tgt.ID, "", ""⟩⟩) := by
  refine ⟨rfl, rfl, ?_⟩
  rcases exists_first_decomposition id items hmem with ⟨pre, tgt, post, heq, hid, hpre⟩
  subst heq
  refine ⟨pre, tgt, post, rfl, hid, hpre, ?_⟩
  have h2 := updateList_first id zeroItem pre post tgt hid hpre
  simp only [updateItem, decodeBody, decodeItem, h2]
  all_goals rfl

/-- Witness for C10 at id "4" on the seed with draw 12. -/
theorem c10_null_body_decodes_witness :
    (∃ it ∈ initialItems, it.ID = "4") ∧
    (decodeBody (some Json.null) = some zeroItem ∧
     createItem (some Json.null) 12 initialItems =
       (initialItems ++ [⟨itoa 12, "", ""⟩], ⟨201, itemJson ⟨itoa 12, "", ""⟩⟩) ∧
     ∃ pre tgt post, initialItems = pre ++ tgt :: post ∧ tgt.ID = "4" ∧
       (∀ x ∈ pre, x.ID ≠ "4") ∧
       updateItem "4" (some Json.null) initialItems =
         (pre ++ (⟨tgt.ID, "", ""⟩ : Item) :: post, ⟨200, itemJson ⟨tgt.ID, "", ""⟩⟩)) :=
  ⟨by decide, c10_null_body_decodes "4" 12 initialItems (by decide)⟩

end DemoJamApi
